import Mathlib

/-!
# A verification development of the share-bib scheduled-crawl subsystem

Shallow embedding of the crawl subsystem of the share-bib backend:
the keyword filter shared by the concrete sources
(`crawl/sources/arxiv_rss.py::_matches_keywords`,
`crawl/sources/semantic_scholar.py::_matches_keywords`), the deduplication
engine (`services/deduplication.py`), the crawl executor
(`crawl/executor.py`) and the crawl scheduler (`crawl/scheduler.py`).

Python strings are modelled by `String`, datetimes by `Int` (seconds),
JSON dicts produced by `FetchedPaper.to_paper_dict` by a record with
`Option` fields (a `none` field is an absent key: `to_paper_dict` filters
out `None` values), and the SQLAlchemy session by an explicit `Store`
value threaded through the functions.  Nondeterministic inputs of the code
(wall-clock time, `uuid4`, the network) are passed as explicit parameters.
-/

/-! ## Python string primitives used by the crawl code -/

/-- Python's `\w` character class, restricted to ASCII as the model of
`re.sub(r"[^\w\s]", "", ...)` in `normalize_title`. -/
def isWordChar (c : Char) : Bool :=
  c.isAlphanum || c = '_'

/-- Python's `\s` character class (ASCII): space, tab, newline, carriage
return, vertical tab, form feed. -/
def isPySpace (c : Char) : Bool :=
  c = ' ' || c = '\t' || c = '\n' || c = '\r' || c = '\x0b' || c = '\x0c'

/-- Python `str.lower()` on ASCII text. -/
def lowerStr (s : String) : String :=
  String.mk (s.data.map Char.toLower)

/-- Python `str.strip()`: drop leading and trailing whitespace. -/
def stripStr (s : String) : String :=
  String.mk (((s.data.dropWhile isPySpace).reverse.dropWhile isPySpace).reverse)

/-- `pat` is a prefix of `text` (on character lists). -/
def startsWithL : List Char → List Char → Bool
  | [], _ => true
  | _ :: _, [] => false
  | a :: as, b :: bs => a = b && startsWithL as bs

/-- Python's `pattern in text` substring test (on character lists). -/
def containsSub (pat : List Char) : List Char → Bool
  | [] => startsWithL pat []
  | c :: ts => startsWithL pat (c :: ts) || containsSub pat ts

/-- Python `s.split(sep)` for a single-character separator, on character
lists (auxiliary accumulator form). -/
def splitOnCharAux (sep : Char) : List Char → List Char → List (List Char)
  | [], acc => [acc.reverse]
  | c :: cs, acc =>
    if c = sep then acc.reverse :: splitOnCharAux sep cs []
    else splitOnCharAux sep cs (c :: acc)

/-- Python `s.split(sep)` for a single-character separator. -/
def splitOnChar (sep : Char) (l : List Char) : List (List Char) :=
  splitOnCharAux sep l []

/-- Split a character list at every character satisfying `p`
(the pieces between separator characters, empties included). -/
def splitByPredAux (p : Char → Bool) : List Char → List Char → List (List Char)
  | [], acc => [acc.reverse]
  | c :: cs, acc =>
    if p c then acc.reverse :: splitByPredAux p cs []
    else splitByPredAux p cs (c :: acc)

/-- Split a character list at every character satisfying `p`. -/
def splitByPred (p : Char → Bool) (l : List Char) : List (List Char) :=
  splitByPredAux p l []

/-- Join words with single spaces. -/
def joinWords : List (List Char) → List Char
  | [] => []
  | [w] => w
  | w :: ws => w ++ ' ' :: joinWords ws

/-- The first character of `s` is `c` (Python `s.startswith(c)` for a
one-character marker). -/
def headIs (c : Char) (s : String) : Bool :=
  match s.data with
  | c' :: _ => c' = c
  | [] => false

/-- Drop everything up to and including the first occurrence of `pat` in
`text`; `none` when `pat` does not occur.  Used to model searching for the
next literal segment of a `*`-wildcard pattern. -/
def dropFirstOcc (pat : List Char) : List Char → Option (List Char)
  | [] => if pat.isEmpty then some [] else none
  | c :: ts =>
    if startsWithL pat (c :: ts) then some ((c :: ts).drop pat.length)
    else dropFirstOcc pat ts

/-- Match the literal segments of a wildcard pattern in order, each after
the previous one: the model of `re.search` on
`re.escape(pattern).replace(r"\*", ".*")`. -/
def matchSegs : List (List Char) → List Char → Bool
  | [], _ => true
  | s :: rest, text =>
    match dropFirstOcc s text with
    | none => false
    | some t => matchSegs rest t

/-! ## Keyword filter

`_matches_keywords` is duplicated verbatim in `arxiv_rss.py` and
`semantic_scholar.py`; both copies are embedded by the single definition
`matchesKeywords` below. -/

/-- The inner `_match(pattern, text)` of `_matches_keywords`: wildcard
match when the pattern contains `*`, plain substring test otherwise. -/
def kwMatch (pattern text : String) : Bool :=
  if pattern.data.contains '*' then
    matchSegs (splitOnChar '*' pattern.data) text.data
  else
    containsSub pattern.data text.data

/-- The three keyword buckets built by the parsing loop of
`_matches_keywords`. -/
structure KwSets where
  required : List String
  excluded : List String
  optional : List String
deriving Repr, DecidableEq

/-- The parsing loop of `_matches_keywords`: strip each expression, skip
empty ones, route `+`/`-`/plain expressions (lowercased, marker removed)
into the three buckets in input order. -/
def parseKws : List String → KwSets
  | [] => ⟨[], [], []⟩
  | raw :: rest =>
    let s := parseKws rest
    let kw := stripStr raw
    if kw.isEmpty then s
    else if headIs '+' kw then
      { s with required := lowerStr (kw.drop 1) :: s.required }
    else if headIs '-' kw then
      { s with excluded := lowerStr (kw.drop 1) :: s.excluded }
    else
      { s with optional := lowerStr kw :: s.optional }

/-- The text blob the filter runs on: `f"{title} {abstract or ''}".lower()`. -/
def kwText (title : String) (abstract : Option String) : String :=
  lowerStr (title ++ " " ++ abstract.getD "")

/-- The three checking loops of `_matches_keywords`, in source order:
reject when a required term misses, then when an excluded term hits, then
when optional terms exist and none hits. -/
def evalKwSets (s : KwSets) (text : String) : Bool :=
  if s.required.any (fun kw => !kwMatch kw text) then false
  else if s.excluded.any (fun kw => kwMatch kw text) then false
  else if !s.optional.isEmpty && !s.optional.any (fun kw => kwMatch kw text) then
    false
  else true

/-- `_matches_keywords(paper, keywords)` of both concrete sources:
`None`/empty keywords match everything; otherwise parse the expressions
and run the three checking loops on the lowercased title-plus-abstract
blob. -/
def matchesKeywords (keywords : Option (List String)) (title : String)
    (abstract : Option String) : Bool :=
  match keywords with
  | none => true
  | some kws =>
    if kws.isEmpty then true
    else evalKwSets (parseKws kws) (kwText title abstract)

/-! ## Data model -/

/-- `crawl/types.py::FetchedPaper` — the transient record a source emits. -/
structure FetchedPaper where
  title : String
  authors : Option (List String) := none
  abstract : Option String := none
  year : Option Int := none
  venue : Option String := none
  arxiv_id : Option String := none
  doi : Option String := none
  url_arxiv : Option String := none
  url_pdf : Option String := none
  url_code : Option String := none
  url_project : Option String := none
  tags : Option (List String) := none
  bibtex_key : Option String := none
deriving Repr, DecidableEq

/-- Python truthiness of an optional string: present and non-empty. -/
def truthyOpt : Option String → Bool
  | some s => !s.isEmpty
  | none => false

/-- The dict built by `FetchedPaper.to_paper_dict`: `None` fields are
filtered out (modelled by `Option` fields), then a `status` key is added:
`"accessible"` when `url_arxiv` or `url_pdf` is truthy, else
`"no_access"`. -/
structure PaperDict where
  title : String
  authors : Option (List String) := none
  abstract : Option String := none
  year : Option Int := none
  venue : Option String := none
  arxiv_id : Option String := none
  doi : Option String := none
  url_arxiv : Option String := none
  url_pdf : Option String := none
  url_code : Option String := none
  url_project : Option String := none
  tags : Option (List String) := none
  bibtex_key : Option String := none
  status : String
deriving Repr, DecidableEq

/-- `FetchedPaper.to_paper_dict`. -/
def FetchedPaper.to_paper_dict (f : FetchedPaper) : PaperDict :=
  { title := f.title
    authors := f.authors
    abstract := f.abstract
    year := f.year
    venue := f.venue
    arxiv_id := f.arxiv_id
    doi := f.doi
    url_arxiv := f.url_arxiv
    url_pdf := f.url_pdf
    url_code := f.url_code
    url_project := f.url_project
    tags := f.tags
    bibtex_key := f.bibtex_key
    status :=
      if truthyOpt f.url_arxiv || truthyOpt f.url_pdf then "accessible"
      else "no_access" }

/-- `models/paper.py::Paper` — the persisted record (columns used by the
crawl subsystem; `created_at`/`updated_at` are omitted as no claim reads
them). -/
structure Paper where
  id : String
  title : String
  authors : Option (List String) := none
  venue : Option String := none
  year : Option Int := none
  abstract : Option String := none
  summary : Option String := none
  status : String := "no_access"
  bibtex_key : Option String := none
  arxiv_id : Option String := none
  doi : Option String := none
  url_arxiv : Option String := none
  url_pdf : Option String := none
  url_code : Option String := none
  url_project : Option String := none
  tags : Option (List String) := none
deriving Repr, DecidableEq

/-- `models/collection.py::Collection` (columns the crawl subsystem
touches). -/
structure Collection where
  id : String
  title : String
  description : Option String := none
  created_by : String
  visibility : String := "private"
  task_type : String
  task_source : Option String := none
  task_source_display : Option String := none
deriving Repr, DecidableEq

/-- `models/collection_paper.py::CollectionPaper` — a membership row. -/
structure CollectionPaper where
  collection_id : String
  paper_id : String
  group_name : Option String := none
  group_tag : Option String := none
  section_name : Option String := none
  display_order : Nat := 0
deriving Repr, DecidableEq

/-- The relational store the crawl subsystem reads and writes, with a
counter resolving the nondeterminism of store-generated paper ids. -/
structure Store where
  papers : List Paper
  collections : List Collection
  memberships : List CollectionPaper
  nextPaperId : Nat
deriving Repr, DecidableEq

/-- Model of the store-generated `uuid4` paper id. -/
def freshPaperId (n : Nat) : String :=
  "paper-" ++ toString n

/-! ## Deduplication engine (`services/deduplication.py`) -/

/-- `DuplicateMatchType` — which strategy of the cascade matched. -/
inductive DuplicateMatchType where
  | BIBTEX_KEY
  | ARXIV_ID
  | DOI
  | TITLE
deriving Repr, DecidableEq

/-- `normalize_title`: lowercase, remove every character that is neither a
word character nor whitespace, collapse whitespace runs to single spaces
and strip the ends (`re.sub(r"\s+", " ", t).strip()` is modelled by
splitting on whitespace and rejoining the non-empty pieces). -/
def normalize_title (title : String) : String :=
  let t := (lowerStr title).data
  let t := t.filter (fun c => isWordChar c || isPySpace c)
  String.mk (joinWords ((splitByPred isPySpace t).filter (fun w => !w.isEmpty)))

/-- The scoped base query of `find_duplicate_paper` when `owner_user_id`
is given: papers joined through membership rows into collections created
by the owner. -/
def scopedPapers (st : Store) (owner : String) : List Paper :=
  st.papers.filter (fun p =>
    st.memberships.any (fun m =>
      m.paper_id = p.id &&
        st.collections.any (fun c =>
          c.id = m.collection_id && c.created_by = owner)))

/-- `find_duplicate_paper(db, paper_data, owner_user_id)` restricted to
the data the executor consumes (the matched row and the strategy that
matched; the remaining `DuplicateInfo` fields are copies of both records'
metadata and are discarded by the executor).  `papers` is the scoped
query result.  The four strategies are tried in source order with early
return. -/
def find_duplicate_paper (papers : List Paper) (d : PaperDict) :
    Option (Paper × DuplicateMatchType) :=
  match (if truthyOpt d.bibtex_key then
      papers.find? (fun p => p.bibtex_key = d.bibtex_key) else none) with
  | some p => some (p, .BIBTEX_KEY)
  | none =>
  match (if truthyOpt d.arxiv_id then
      papers.find? (fun p => p.arxiv_id = d.arxiv_id) else none) with
  | some p => some (p, .ARXIV_ID)
  | none =>
  match (if truthyOpt d.doi then
      papers.find? (fun p => p.doi = d.doi) else none) with
  | some p => some (p, .DOI)
  | none =>
  match papers.find? (fun p => normalize_title p.title = normalize_title d.title) with
  | some p => some (p, .TITLE)
  | none => none

/-! ## Crawl executor (`crawl/executor.py`) -/

/-- A structured error entry of the result: per-item entries carry the
item's title, the top-level fetch error carries none. -/
structure ErrEntry where
  title : Option String := none
  reason : String
deriving Repr, DecidableEq

/-- The result summary dict built by `CrawlExecutor.execute` (the `error`
and `message` keys are only present on the `target_collection_deleted`
early return). -/
structure ExecResult where
  new_papers : Nat := 0
  skipped : Nat := 0
  updated : Nat := 0
  errors : List ErrEntry := []
  collection_id : Option String := none
  error : Option String := none
  message : Option String := none
deriving Repr, DecidableEq

/-- The JSON documents stored in `last_run_result` / `run.result`: either
a full result summary, or the `{"error": ..}` / `{"error": .., "message": ..}`
dicts written by `_resolve_collection` and the scheduler's exception
handler. -/
inductive ResultDoc where
  | full (r : ExecResult)
  | errorDoc (error : String) (message : Option String)
deriving Repr, DecidableEq

/-- Opaque JSON source configuration (never inspected by the code under
verification). -/
abbrev SourceConfig := String

/-- The per-user key-value settings bag
(`get_settings(user_id) -> map[string,string]`). -/
abbrev UserSettings := List (String × String)

/-- `models/crawl_task.py::CrawlTask` (columns the crawl subsystem
touches; datetimes are `Int` seconds).  The column `new_collection_prefix`
is named `new_collection_stem` here. -/
structure CrawlTask where
  id : String
  user_id : String
  name : String
  source_type : String
  source_config : SourceConfig
  schedule_type : String
  target_mode : String
  target_collection_id : Option String := none
  new_collection_stem : Option String := none
  duplicate_strategy : String := "skip"
  is_enabled : Bool := true
  last_run_at : Option Int := none
  last_run_status : Option String := none
  last_run_result : Option ResultDoc := none
  next_run_at : Option Int := none
deriving Repr, DecidableEq

/-- The message `_resolve_collection` and `execute` format for a deleted
target collection (`None` rendering of a missing id included). -/
def missingCollectionMsg (task : CrawlTask) : String :=
  "Collection '" ++ (match task.target_collection_id with
    | some s => s
    | none => "None") ++ "' no longer exists"

/-- `CrawlExecutor._resolve_collection`: in append mode look the target
collection up, and on a miss disable the task, mark it failed and return
`none`; in create-new mode synthesize a collection id from the stem
(falling back to the task name), the current date and, on collision, a
random suffix — `dateStr` and `uuidSuffix` resolve that nondeterminism. -/
def resolve_collection (task : CrawlTask) (st : Store) (dateStr uuidSuffix : String) :
    Option Collection × CrawlTask × Store :=
  if task.target_mode = "append" then
    match (match task.target_collection_id with
      | some tc => st.collections.find? (fun c => c.id = tc)
      | none => none) with
    | some c => (some c, task, st)
    | none =>
      (none,
       { task with
          is_enabled := false
          last_run_status := some "failed"
          last_run_result :=
            some (.errorDoc "target_collection_deleted" (some (missingCollectionMsg task))) },
       st)
  else
    let stem := if truthyOpt task.new_collection_stem then task.new_collection_stem.getD ""
      else task.name
    let title := stem ++ " - " ++ dateStr
    let slug := String.mk (((lowerStr stem).data.map
      (fun c => if c = ' ' then '-' else c)).take 40)
    let cid0 := slug ++ "-" ++ dateStr
    let cid := if st.collections.any (fun c => c.id = cid0) then cid0 ++ "-" ++ uuidSuffix
      else cid0
    let col : Collection :=
      { id := cid
        title := title
        description := some ("Auto-created by crawl task: " ++ task.name)
        created_by := task.user_id
        visibility := "private"
        task_type := "crawl_task"
        task_source := some task.source_type
        task_source_display := some task.name }
    (some col, task, { st with collections := st.collections ++ [col] })

/-- The current maximum display order of a collection
(`max(display_order)` with `or 0`). -/
def maxDisplayOrder (st : Store) (cid : String) : Nat :=
  (st.memberships.filter (fun m => m.collection_id = cid)).foldl
    (fun acc m => Nat.max acc m.display_order) 0

/-- The `duplicate_strategy == "update"` loop of `execute`: write every
key of the paper dict except `status` onto the existing row (every key
present in the dict is non-`None`, since `to_paper_dict` filtered). -/
def applyUpdate (existing : Paper) (d : PaperDict) : Paper :=
  { existing with
    title := d.title
    authors := match d.authors with | some v => some v | none => existing.authors
    abstract := match d.abstract with | some v => some v | none => existing.abstract
    year := match d.year with | some v => some v | none => existing.year
    venue := match d.venue with | some v => some v | none => existing.venue
    arxiv_id := match d.arxiv_id with | some v => some v | none => existing.arxiv_id
    doi := match d.doi with | some v => some v | none => existing.doi
    url_arxiv := match d.url_arxiv with | some v => some v | none => existing.url_arxiv
    url_pdf := match d.url_pdf with | some v => some v | none => existing.url_pdf
    url_code := match d.url_code with | some v => some v | none => existing.url_code
    url_project := match d.url_project with | some v => some v | none => existing.url_project
    tags := match d.tags with | some v => some v | none => existing.tags
    bibtex_key := match d.bibtex_key with | some v => some v | none => existing.bibtex_key }

/-- `Paper(**paper_dict)` with a store-generated id. -/
def paperFromDict (pid : String) (d : PaperDict) : Paper :=
  { id := pid
    title := d.title
    authors := d.authors
    venue := d.venue
    year := d.year
    abstract := d.abstract
    summary := none
    status := d.status
    bibtex_key := d.bibtex_key
    arxiv_id := d.arxiv_id
    doi := d.doi
    url_arxiv := d.url_arxiv
    url_pdf := d.url_pdf
    url_code := d.url_code
    url_project := d.url_project
    tags := d.tags }

/-- In-place mutation of a row (`setattr` on the ORM object), seen by the
store as replacing the row with the given id. -/
def replacePaper (papers : List Paper) (pid : String) (p : Paper) : List Paper :=
  papers.map (fun q => if q.id = pid then p else q)

/-- The collection-membership step at the end of the per-item loop of
`execute`: if a membership row for this (collection, paper) pair exists,
do nothing; otherwise bump the running order counter and append a row
with the crawled group labels. -/
def membershipStep (cid pid : String) (st : Store) (maxOrder : Nat) (res : ExecResult) :
    Store × Nat × ExecResult :=
  if st.memberships.any (fun m => m.collection_id = cid && m.paper_id = pid) then
    (st, maxOrder, res)
  else
    ({ st with memberships := st.memberships ++
        [{ collection_id := cid
           paper_id := pid
           group_name := some "Crawled"
           group_tag := some "crawled"
           section_name := some "All Papers"
           display_order := maxOrder + 1 }] },
     maxOrder + 1, res)

/-- One iteration of the per-item loop of `execute`: deduplicate the
fetched item against the owner-scoped store, apply the duplicate
strategy (or insert a fresh row), then run the membership step. -/
def processOne (owner strategy cid : String) (acc : Store × Nat × ExecResult)
    (fetched : FetchedPaper) : Store × Nat × ExecResult :=
  let (st, maxOrder, res) := acc
  let d := fetched.to_paper_dict
  match find_duplicate_paper (scopedPapers st owner) d with
  | some (existing, _) =>
    if strategy = "update" then
      let p := applyUpdate existing d
      membershipStep cid p.id { st with papers := replacePaper st.papers existing.id p }
        maxOrder { res with updated := res.updated + 1 }
    else
      membershipStep cid existing.id st maxOrder { res with skipped := res.skipped + 1 }
  | none =>
    let p := paperFromDict (freshPaperId st.nextPaperId) d
    membershipStep cid p.id
      { st with papers := st.papers ++ [p], nextPaperId := st.nextPaperId + 1 }
      maxOrder { res with new_papers := res.new_papers + 1 }

/-- `CrawlExecutor.execute(task, db)`.  The outcome of
`source.fetch(task.source_config, task.last_run_at)` is passed in as
`fetchRes`: `.error` models the call raising (the executor's broad
`except` catches it and records one top-level error entry), `.ok` its
returned item list. -/
def CrawlExecutor.execute (task : CrawlTask) (st : Store)
    (fetchRes : Except String (List FetchedPaper)) (dateStr uuidSuffix : String) :
    CrawlTask × Store × ExecResult :=
  match resolve_collection task st dateStr uuidSuffix with
  | (none, task', st') =>
    (task', st',
      { error := some "target_collection_deleted"
        message := some (missingCollectionMsg task) })
  | (some col, task', st') =>
    match fetchRes with
    | .error e =>
      (task', st',
        { collection_id := some col.id, errors := [{ title := none, reason := e }] })
    | .ok papers =>
      let maxOrder := maxDisplayOrder st' col.id
      let out := papers.foldl (processOne task'.user_id task'.duplicate_strategy col.id)
        (st', maxOrder, { collection_id := some col.id })
      (task', out.1, out.2.2)

/-! ## Crawl scheduler (`crawl/scheduler.py`) -/

/-- One day of the model clock, in seconds (`timedelta(days=1)`). -/
def oneDay : Int := 86400

/-- `compute_next_run(schedule_type, from_time)`. -/
def compute_next_run (schedule_type : String) (from_time : Int) : Option Int :=
  if schedule_type = "once" then none
  else if schedule_type = "daily" then some (from_time + oneDay)
  else if schedule_type = "weekly" then some (from_time + 7 * oneDay)
  else if schedule_type = "monthly" then some (from_time + 30 * oneDay)
  else some (from_time + oneDay)

/-- `models/crawl_task_run.py::CrawlTaskRun` — the audit record of one
execution. -/
structure CrawlTaskRun where
  task_id : String
  status : String
  result : Option ResultDoc := none
  collection_id : Option String := none
  started_at : Int
  finished_at : Option Int := none
deriving Repr, DecidableEq

/-- `crawl/sources/__init__.py::REGISTRY` — the statically registered
source types. -/
def REGISTRY : List String := ["arxiv_rss", "semantic_scholar"]

/-- `get_source` succeeds exactly for registered source types (otherwise
it raises `ValueError`). -/
def sourceRegistered (source_type : String) : Bool :=
  REGISTRY.contains source_type

/-- The scheduler's `except` branch of `_execute_task_inner`: an
exception escaping `executor.execute` (in this code only `get_source`
can raise there) marks the task and the run failed, recomputes
`next_run_at` and disables one-shot tasks. -/
def schedulerExceptPath (task : CrawlTask) (st : Store) (run0 : CrawlTaskRun)
    (msg : String) (now fin : Int) : CrawlTask × Store × CrawlTaskRun :=
  let task' := { task with
    last_run_at := some now
    last_run_status := some "failed"
    last_run_result := some (.errorDoc msg none)
    next_run_at := compute_next_run task.schedule_type now
    is_enabled := if task.schedule_type = "once" then false else task.is_enabled }
  (task', st,
    { run0 with
      status := "failed"
      result := some (.errorDoc msg none)
      finished_at := some fin })

/-- `CrawlScheduler._execute_task_inner(task, db)`: open a `running` run
record, invoke the executor, and finalize task and run according to the
outcome.  `now` is the execution's start time, `fin` the finish
timestamp, and `fetchRes`/`dateStr`/`uuidSuffix` resolve the executor's
nondeterministic inputs. -/
def CrawlScheduler.execute_task_inner (task : CrawlTask) (st : Store) (now fin : Int)
    (fetchRes : Except String (List FetchedPaper)) (dateStr uuidSuffix : String) :
    CrawlTask × Store × CrawlTaskRun :=
  let run0 : CrawlTaskRun := { task_id := task.id, status := "running", started_at := now }
  if !sourceRegistered task.source_type then
    schedulerExceptPath task st run0 ("Unknown source type: " ++ task.source_type) now fin
  else
    let out := CrawlExecutor.execute task st fetchRes dateStr uuidSuffix
    let task1 := out.1
    let st1 := out.2.1
    let result := out.2.2
    if result.error = some "target_collection_deleted" then
      (task1, st1,
        { run0 with
          status := "failed"
          result := some (.full result)
          finished_at := some fin })
    else
      let status1 := if result.errors.isEmpty then "success" else "partial"
      let task2 := { task1 with
        last_run_at := some now
        last_run_status := some status1
        last_run_result := some (.full result)
        next_run_at := compute_next_run task1.schedule_type now
        is_enabled := if task1.schedule_type = "once" then false else task1.is_enabled }
      (task2, st1,
        { run0 with
          status := status1
          result := some (.full result)
          collection_id := result.collection_id
          finished_at := some fin })

/-- The reentrancy guard of `CrawlScheduler._execute_task`: the
membership check of `self._running_tasks` and the insertion happen with
no `await` between them, so on the single-threaded event loop they form
one atomic step — the checked-then-inserted acquisition modelled here.
Returns the new running set and whether the dispatch was accepted. -/
def tryBeginTask (running : List String) (task_id : String) : List String × Bool :=
  if running.contains task_id then (running, false)
  else (task_id :: running, true)

/-- The return value of `CrawlScheduler.run_task_now(task_id)`: `False`
when the task id is already in the running set, `False` when no such
task row exists, `True` otherwise (after executing). -/
def run_task_now_result (running : List String) (task_id : String) (taskFound : Bool) : Bool :=
  if running.contains task_id then false
  else if taskFound then true
  else false

/-! ## The executor's fetch call and the per-user settings bag -/

/-- The argument triple of one `source.fetch` invocation. -/
structure FetchArgs where
  config : SourceConfig
  since : Option Int
  user_settings : Option UserSettings
deriving Repr, DecidableEq

/-- The arguments `CrawlExecutor.execute` passes to `source.fetch`
(executor.py line 44): the task's config and `last_run_at` positionally,
with the `user_settings` parameter left at its declared default `None`. -/
def executorFetchArgs (task : CrawlTask) : FetchArgs :=
  { config := task.source_config, since := task.last_run_at, user_settings := none }

/-- `SemanticScholarSource.fetch`'s API-key extraction:
`(user_settings or {}).get("semantic_scholar_api_key")`. -/
def s2ApiKey (user_settings : Option UserSettings) : Option String :=
  (user_settings.getD []).lookup "semantic_scholar_api_key"

/-! ## Spec-side definitions

The following definitions are written from the specification's words (not
from the source) and exist only to be compared with the source-derived
definitions above. -/

/-- Spec §4.3 strategy 1: `bibtex_key` exact match, only if the candidate
has one. -/
def bibtexStrategySpec (papers : List Paper) (d : PaperDict) :
    Option (Paper × DuplicateMatchType) :=
  (if truthyOpt d.bibtex_key then
      papers.find? (fun p => p.bibtex_key = d.bibtex_key) else none).map
    (fun p => (p, DuplicateMatchType.BIBTEX_KEY))

/-- Spec §4.3 strategy 2: `arxiv_id` exact match. -/
def arxivStrategySpec (papers : List Paper) (d : PaperDict) :
    Option (Paper × DuplicateMatchType) :=
  (if truthyOpt d.arxiv_id then
      papers.find? (fun p => p.arxiv_id = d.arxiv_id) else none).map
    (fun p => (p, DuplicateMatchType.ARXIV_ID))

/-- Spec §4.3 strategy 3: `doi` exact match. -/
def doiStrategySpec (papers : List Paper) (d : PaperDict) :
    Option (Paper × DuplicateMatchType) :=
  (if truthyOpt d.doi then
      papers.find? (fun p => p.doi = d.doi) else none).map
    (fun p => (p, DuplicateMatchType.DOI))

/-- Spec §4.3 strategy 4: normalized-title match. -/
def titleStrategySpec (papers : List Paper) (d : PaperDict) :
    Option (Paper × DuplicateMatchType) :=
  (papers.find? (fun p => normalize_title p.title = normalize_title d.title)).map
    (fun p => (p, DuplicateMatchType.TITLE))

/-- First strategy of the list that finds a match ("ordered cascade,
first match wins, never combined"). -/
def firstMatch : List (Option (Paper × DuplicateMatchType)) →
    Option (Paper × DuplicateMatchType)
  | [] => none
  | o :: rest =>
    match o with
    | some x => some x
    | none => firstMatch rest

/-- Spec §4.3: the ordered dedup cascade. -/
def dedupCascadeSpec (papers : List Paper) (d : PaperDict) :
    Option (Paper × DuplicateMatchType) :=
  firstMatch [bibtexStrategySpec papers d, arxivStrategySpec papers d,
    doiStrategySpec papers d, titleStrategySpec papers d]

/-! ## Invariants about membership rows -/

/-- No two membership rows carry the same (collection, paper) pair. -/
def pairUnique (ms : List CollectionPaper) : Prop :=
  List.Pairwise
    (fun a b => ¬(a.collection_id = b.collection_id ∧ a.paper_id = b.paper_id)) ms

/-- Every membership row of the collection has display order at most
`mo` (the running counter dominates the column). -/
def ordersBounded (ms : List CollectionPaper) (cid : String) (mo : Nat) : Prop :=
  ∀ m ∈ ms, m.collection_id = cid → m.display_order ≤ mo

/-- The display orders of the collection's membership rows are strictly
increasing in row order. -/
def ordersChain (ms : List CollectionPaper) (cid : String) : Prop :=
  List.Chain' (· < ·)
    ((ms.filter (fun m => m.collection_id = cid)).map (fun m => m.display_order))

/-! ## Concrete fixtures for counterexamples and witnesses -/

/-- A daily append-mode task whose target collection exists. -/
def fixtureTask : CrawlTask :=
  { id := "t1", user_id := "u1", name := "T", source_type := "arxiv_rss",
    source_config := "{}", schedule_type := "daily", target_mode := "append",
    target_collection_id := some "c1", next_run_at := some 42 }

/-- A store holding exactly the collection `c1`. -/
def fixtureStore : Store :=
  { papers := []
    collections := [{ id := "c1", title := "C", created_by := "u1", task_type := "manual" }]
    memberships := []
    nextPaperId := 0 }

/-- `fixtureTask` pointed at a collection id absent from `fixtureStore`. -/
def fixtureTaskGone : CrawlTask :=
  { fixtureTask with target_collection_id := some "gone" }

/-- A one-shot variant of `fixtureTaskGone` with a pending
`next_run_at`. -/
def fixtureTaskOnceGone : CrawlTask :=
  { fixtureTaskGone with schedule_type := "once", next_run_at := some 5 }

/-- An existing paper carrying an arXiv id and a title unrelated to it. -/
def fixturePaperArxiv : Paper :=
  { id := "p1", title := "Different Title Entirely", arxiv_id := some "1706.03762" }

/-- An existing paper whose normalized title collides with the C4
candidate below. -/
def fixturePaperTitle : Paper :=
  { id := "p2", title := "Attention Is All You Need" }

/-- A candidate matching `fixturePaperArxiv` by arXiv id and
`fixturePaperTitle` by normalized title. -/
def fixtureCand : PaperDict :=
  { title := "Attention is all you need!", arxiv_id := some "1706.03762",
    status := "no_access" }

/-- An inaccessible stored paper, linked into `c1`, to be hit by a
duplicate carrying a PDF link. -/
def fixturePaperStale : Paper :=
  { id := "p1", title := "Old", status := "no_access", doi := some "10.1/x" }

/-- A store where `fixturePaperStale` is a member of the owner's
collection `c1`. -/
def fixtureStoreStale : Store :=
  { papers := [fixturePaperStale]
    collections := [{ id := "c1", title := "C", created_by := "u1", task_type := "manual" }]
    memberships := [{ collection_id := "c1", paper_id := "p1" }]
    nextPaperId := 0 }

/-- A fetched item duplicating `fixturePaperStale` by DOI and carrying a
PDF url (so its derived status is "accessible"). -/
def fixtureFetchedPdf : FetchedPaper :=
  { title := "New", doi := some "10.1/x", url_pdf := some "http://x/pdf" }

/-! ## Theorems -/

/-- Characterization of the three checking loops of the keyword filter. -/
theorem evalKwSets_eq_true_iff (s : KwSets) (text : String) :
    evalKwSets s text = true ↔
      ((∀ kw ∈ s.required, kwMatch kw text = true) ∧
       (∀ kw ∈ s.excluded, kwMatch kw text = false) ∧
       (s.optional ≠ [] → ∃ kw ∈ s.optional, kwMatch kw text = true)) := by
  unfold evalKwSets
  split_ifs with h1 h2 h3
  · simp only [Bool.false_eq_true, false_iff]
    rintro ⟨hr, -, -⟩
    rw [List.any_eq_true] at h1
    obtain ⟨kw, hmem, hkw⟩ := h1
    have := hr kw hmem
    simp [this] at hkw
  · simp only [Bool.false_eq_true, false_iff]
    rintro ⟨-, he, -⟩
    rw [List.any_eq_true] at h2
    obtain ⟨kw, hmem, hkw⟩ := h2
    have := he kw hmem
    simp [this] at hkw
  · simp only [Bool.false_eq_true, false_iff]
    rintro ⟨-, -, ho⟩
    rw [Bool.and_eq_true] at h3
    obtain ⟨hne, hnone⟩ := h3
    rw [Bool.not_eq_true'] at hne hnone
    have hopt : s.optional ≠ [] := by
      intro hnil; rw [hnil] at hne; simp at hne
    obtain ⟨kw, hmem, hkw⟩ := ho hopt
    rw [List.any_eq_false] at hnone
    exact absurd hkw (by simpa using hnone kw hmem)
  · simp only [true_iff]
    refine ⟨?_, ?_, ?_⟩
    · intro kw hmem
      by_contra hk
      exact h1 (List.any_eq_true.mpr ⟨kw, hmem, by simpa using hk⟩)
    · intro kw hmem
      by_contra hk
      exact h2 (List.any_eq_true.mpr ⟨kw, hmem, by simpa using hk⟩)
    · intro hne
      by_contra hno
      push_neg at hno
      apply h3
      rw [Bool.and_eq_true, Bool.not_eq_true', Bool.not_eq_true']
      constructor
      · cases hs : s.optional with
        | nil => exact absurd hs hne
        | cons a l => simp [hs]
      · rw [List.any_eq_false]
        intro kw hmem
        simpa using hno kw hmem

/-- C5: the keyword filter evaluates required terms first (rejecting if
any required term fails to match), then excluded terms (rejecting if any
excluded term matches), then optional terms (rejecting only if optional
terms exist and none match), with `*` as a wildcard and case-insensitive
substring matching; in particular `["+neural", "-survey", "gpt"]` rejects
"A Survey of GPT Architectures" and accepts "Neural GPT Models". -/
theorem keyword_filter_precedence :
    (∀ (kws : List String) (title : String) (abstract : Option String),
      matchesKeywords (some kws) title abstract = true ↔
        ((∀ kw ∈ (parseKws kws).required, kwMatch kw (kwText title abstract) = true) ∧
         (∀ kw ∈ (parseKws kws).excluded, kwMatch kw (kwText title abstract) = false) ∧
         ((parseKws kws).optional ≠ [] →
           ∃ kw ∈ (parseKws kws).optional, kwMatch kw (kwText title abstract) = true))) ∧
    matchesKeywords (some ["+neural", "-survey", "gpt"]) "A Survey of GPT Architectures" none
      = false ∧
    matchesKeywords (some ["+neural", "-survey", "gpt"]) "Neural GPT Models" none = true := by
  refine ⟨?_, by decide, by decide⟩
  intro kws title abstract
  cases kws with
  | nil => simp [matchesKeywords, parseKws]
  | cons a l =>
    simp only [matchesKeywords, List.isEmpty_cons, if_neg Bool.false_ne_true]
    exact evalKwSets_eq_true_iff _ _

/-- C4: the deduplication engine tries the strategies strictly in the
order bibtex-key exact match (only when the candidate has one), then
arxiv-id exact match, then doi exact match, then normalized-title match,
returns the first strategy that finds an existing record (never
combined), and in particular returns the arxiv-id match when a candidate
matches one record's arxiv id and a different record's normalized
title. -/
theorem dedup_cascade_order :
    (∀ (papers : List Paper) (d : PaperDict),
      find_duplicate_paper papers d = dedupCascadeSpec papers d) ∧
    find_duplicate_paper [fixturePaperTitle, fixturePaperArxiv] fixtureCand =
      some (fixturePaperArxiv, DuplicateMatchType.ARXIV_ID) ∧
    titleStrategySpec [fixturePaperTitle, fixturePaperArxiv] fixtureCand =
      some (fixturePaperTitle, DuplicateMatchType.TITLE) := by
  refine ⟨?_, by decide, by decide⟩
  intro papers d
  simp only [find_duplicate_paper, dedupCascadeSpec, firstMatch, bibtexStrategySpec,
    arxivStrategySpec, doiStrategySpec, titleStrategySpec]
  cases h1 : (if truthyOpt d.bibtex_key then
      papers.find? (fun p => p.bibtex_key = d.bibtex_key) else none) with
  | some p => simp [h1]
  | none =>
    cases h2 : (if truthyOpt d.arxiv_id then
        papers.find? (fun p => p.arxiv_id = d.arxiv_id) else none) with
    | some p => simp [h1, h2]
    | none =>
      cases h3 : (if truthyOpt d.doi then
          papers.find? (fun p => p.doi = d.doi) else none) with
      | some p => simp [h1, h2, h3]
      | none =>
        cases h4 : papers.find?
            (fun p => normalize_title p.title = normalize_title d.title) with
        | some p => simp [h1, h2, h3, h4]
        | none => simp [h1, h2, h3, h4]

/-- C2: for two concurrent dispatch attempts for the same task identity
(each guard check-and-insert being one atomic event-loop step), exactly
one acquisition succeeds — the attempt whose guard runs second is
rejected — and `run_task_now` returns false whenever the task id is
already in the in-memory running set. -/
theorem reentrancy_guard_exclusive :
    (∀ (running : List String) (task_id : String) (taskFound : Bool),
      task_id ∈ running →
      run_task_now_result running task_id taskFound = false) ∧
    (∀ (running : List String) (task_id : String),
      task_id ∉ running →
      (tryBeginTask running task_id).2 = true ∧
      (tryBeginTask (tryBeginTask running task_id).1 task_id).2 = false) := by
  constructor
  · intro running tid tf h
    simp [run_task_now_result, h]
  · intro running tid h
    simp [tryBeginTask, h]

theorem reentrancy_guard_exclusive_witness :
    run_task_now_result ["t1"] "t1" true = false ∧
    ((tryBeginTask [] "t1").2 = true ∧
     (tryBeginTask (tryBeginTask [] "t1").1 "t1").2 = false) :=
  ⟨reentrancy_guard_exclusive.1 ["t1"] "t1" true (by decide),
   reentrancy_guard_exclusive.2 [] "t1" (by decide)⟩

/-- C10 (code bug): the executor passes the task's config and
`last_run_at` to `source.fetch` but leaves `user_settings` at its default
`None` — it never reads the user settings store — so the Semantic Scholar
API-key lookup always yields `none`, although a settings bag holding the
key would supply it.  This contradicts the claim and the `fetch`
docstring in `crawl/sources/base.py` ("injected by executor from DB"). -/
theorem executor_omits_user_settings :
    (∀ task : CrawlTask,
      (executorFetchArgs task).user_settings = none ∧
      s2ApiKey (executorFetchArgs task).user_settings = none) ∧
    s2ApiKey (some [("semantic_scholar_api_key", "sk-test")]) = some "sk-test" := by
  exact ⟨fun task => ⟨rfl, rfl⟩, by decide⟩

/-- `compute_next_run` on a one-shot schedule yields no next run. -/
theorem compute_next_run_once (t : Int) : compute_next_run "once" t = none := rfl

theorem compute_next_run_daily (t : Int) :
    compute_next_run "daily" t = some (t + oneDay) := rfl

theorem compute_next_run_weekly (t : Int) :
    compute_next_run "weekly" t = some (t + 7 * oneDay) := rfl

theorem compute_next_run_monthly (t : Int) :
    compute_next_run "monthly" t = some (t + 30 * oneDay) := rfl

/-- When `_resolve_collection` finds no target collection it disables
the task, marks it failed, records the error document and leaves the
store untouched. -/
theorem resolve_collection_none_task (task : CrawlTask) (st : Store) (d u : String)
    (h : (resolve_collection task st d u).1 = none) :
    (resolve_collection task st d u).2.1 =
      { task with
        is_enabled := false
        last_run_status := some "failed"
        last_run_result :=
          some (.errorDoc "target_collection_deleted" (some (missingCollectionMsg task))) } ∧
    (resolve_collection task st d u).2.2 = st := by
  by_cases hm : task.target_mode = "append"
  · simp only [resolve_collection, if_pos hm] at h ⊢
    cases hkind : (match task.target_collection_id with
        | some tc => st.collections.find? (fun c : Collection => c.id = tc)
        | none => none) with
    | some c => rw [hkind] at h; simp at h
    | none => exact ⟨rfl, rfl⟩
  · simp only [resolve_collection, if_neg hm] at h
    simp at h

/-- When `_resolve_collection` resolves a collection it leaves the task
untouched. -/
theorem resolve_collection_some_task (task : CrawlTask) (st : Store) (d u : String)
    (h : (resolve_collection task st d u).1.isSome = true) :
    (resolve_collection task st d u).2.1 = task := by
  by_cases hm : task.target_mode = "append"
  · simp only [resolve_collection, if_pos hm] at h ⊢
    cases hkind : (match task.target_collection_id with
        | some tc => st.collections.find? (fun c : Collection => c.id = tc)
        | none => none) with
    | some c => rfl
    | none => rw [hkind] at h; simp at h
  · simp [resolve_collection, hm]

/-- The per-item loop never touches the `error`, `message`,
`collection_id` or `errors` entries of the running result. -/
theorem processOne_preserves_res (owner strategy cid : String)
    (acc : Store × Nat × ExecResult) (f : FetchedPaper) :
    (processOne owner strategy cid acc f).2.2.error = acc.2.2.error ∧
    (processOne owner strategy cid acc f).2.2.message = acc.2.2.message ∧
    (processOne owner strategy cid acc f).2.2.collection_id = acc.2.2.collection_id ∧
    (processOne owner strategy cid acc f).2.2.errors = acc.2.2.errors := by
  obtain ⟨st, mo, res⟩ := acc
  simp only [processOne]
  cases find_duplicate_paper (scopedPapers st owner) f.to_paper_dict with
  | some pr =>
    obtain ⟨existing, mt⟩ := pr
    by_cases hs : strategy = "update" <;>
      simp only [hs, if_true, if_false, reduceIte, membershipStep] <;>
        split_ifs <;> simp_all
  | none =>
    simp only [membershipStep]
    split_ifs <;> simp

/-- Folding the per-item loop over a batch never touches the `error`,
`message`, `collection_id` or `errors` entries of the running result. -/
theorem foldl_processOne_preserves_res (owner strategy cid : String)
    (items : List FetchedPaper) (acc : Store × Nat × ExecResult) :
    ((items.foldl (processOne owner strategy cid) acc).2.2.error = acc.2.2.error ∧
     (items.foldl (processOne owner strategy cid) acc).2.2.message = acc.2.2.message ∧
     (items.foldl (processOne owner strategy cid) acc).2.2.collection_id
       = acc.2.2.collection_id ∧
     (items.foldl (processOne owner strategy cid) acc).2.2.errors = acc.2.2.errors) := by
  induction items generalizing acc with
  | nil => exact ⟨rfl, rfl, rfl, rfl⟩
  | cons f rest ih =>
    simp only [List.foldl_cons]
    have h1 := processOne_preserves_res owner strategy cid acc f
    have h2 := ih (processOne owner strategy cid acc f)
    exact ⟨h2.1.trans h1.1, h2.2.1.trans h1.2.1, h2.2.2.1.trans h1.2.2.1,
      h2.2.2.2.trans h1.2.2.2⟩

/-- When the target collection resolves, `execute` leaves the task
untouched and returns a result without the `target_collection_deleted`
error key. -/
theorem execute_resolved_facts (task : CrawlTask) (st : Store)
    (fr : Except String (List FetchedPaper)) (d u : String)
    (h : (resolve_collection task st d u).1.isSome = true) :
    (CrawlExecutor.execute task st fr d u).1 = task ∧
    (CrawlExecutor.execute task st fr d u).2.2.error = none := by
  have htask := resolve_collection_some_task task st d u h
  rcases hres : resolve_collection task st d u with ⟨ocol, task', st'⟩
  rw [hres] at h htask
  cases ocol with
  | none => simp at h
  | some col =>
    simp only at htask
    simp only [CrawlExecutor.execute, hres]
    cases fr with
    | error e => exact ⟨htask, rfl⟩
    | ok papers =>
      refine ⟨htask, ?_⟩
      exact (foldl_processOne_preserves_res task'.user_id task'.duplicate_strategy col.id
        papers (st', maxDisplayOrder st' col.id, { collection_id := some col.id })).1

/-- When the target collection does not resolve, `execute` returns the
disabled task, the unchanged store, and the early-exit result. -/
theorem execute_unresolved_facts (task : CrawlTask) (st : Store)
    (fr : Except String (List FetchedPaper)) (d u : String)
    (h : (resolve_collection task st d u).1 = none) :
    (CrawlExecutor.execute task st fr d u).1 = (resolve_collection task st d u).2.1 ∧
    (CrawlExecutor.execute task st fr d u).2.1 = st ∧
    (CrawlExecutor.execute task st fr d u).2.2 =
      { error := some "target_collection_deleted"
        message := some (missingCollectionMsg task) } := by
  have hst := (resolve_collection_none_task task st d u h).2
  rcases hres : resolve_collection task st d u with ⟨ocol, task', st'⟩
  rw [hres] at h hst
  simp only at h hst
  subst h
  have hexec : CrawlExecutor.execute task st fr d u =
      (task', st',
        { error := some "target_collection_deleted"
          message := some (missingCollectionMsg task) }) := by
    simp only [CrawlExecutor.execute, hres]
  exact ⟨by simp [hexec, hres], by rw [hexec]; exact hst, by rw [hexec]⟩

/-- C3: for every append-mode task whose target collection id no longer
resolves to an existing collection, `execute` returns early with error
`target_collection_deleted`, disables the task, sets `last_run_status` to
"failed", never invokes the source's fetch (the outcome is independent of
the fetch result), and the scheduler leaves `next_run_at` untouched. -/
theorem target_deleted_early_exit :
    ∀ (task : CrawlTask) (st : Store) (fr fr' : Except String (List FetchedPaper))
      (dateStr uuidSuffix : String) (now fin : Int),
      task.target_mode = "append" →
      (∀ c ∈ st.collections, task.target_collection_id ≠ some c.id) →
      ((CrawlExecutor.execute task st fr dateStr uuidSuffix).2.2.error
          = some "target_collection_deleted" ∧
       (CrawlExecutor.execute task st fr dateStr uuidSuffix).1.is_enabled = false ∧
       (CrawlExecutor.execute task st fr dateStr uuidSuffix).1.last_run_status
          = some "failed" ∧
       CrawlExecutor.execute task st fr dateStr uuidSuffix
          = CrawlExecutor.execute task st fr' dateStr uuidSuffix ∧
       (sourceRegistered task.source_type = true →
         (CrawlScheduler.execute_task_inner task st now fin fr dateStr uuidSuffix).1.next_run_at
            = task.next_run_at)) := by
  intro task st fr fr' dateStr uuidSuffix now fin hmode hmiss
  have hnone : (resolve_collection task st dateStr uuidSuffix).1 = none := by
    simp only [resolve_collection, if_pos hmode]
    cases htc : task.target_collection_id with
    | none => rfl
    | some tc =>
      have hfind : st.collections.find? (fun c : Collection => c.id = tc) = none := by
        rw [List.find?_eq_none]
        intro c hc
        have hne := hmiss c hc
        rw [htc] at hne
        simp only [decide_eq_true_eq]
        intro heq
        exact hne (by rw [heq])
      simp only [hfind]
  have hu := execute_unresolved_facts task st fr dateStr uuidSuffix hnone
  have hu' := execute_unresolved_facts task st fr' dateStr uuidSuffix hnone
  have htaskd := (resolve_collection_none_task task st dateStr uuidSuffix hnone).1
  refine ⟨?_, ?_, ?_, ?_, ?_⟩
  · rw [hu.2.2]
  · rw [hu.1, htaskd]
  · rw [hu.1, htaskd]
  · have e1 : (CrawlExecutor.execute task st fr dateStr uuidSuffix).1
        = (CrawlExecutor.execute task st fr' dateStr uuidSuffix).1 := by
      rw [hu.1, hu'.1]
    have e2 : (CrawlExecutor.execute task st fr dateStr uuidSuffix).2.1
        = (CrawlExecutor.execute task st fr' dateStr uuidSuffix).2.1 := by
      rw [hu.2.1, hu'.2.1]
    have e3 : (CrawlExecutor.execute task st fr dateStr uuidSuffix).2.2
        = (CrawlExecutor.execute task st fr' dateStr uuidSuffix).2.2 := by
      rw [hu.2.2, hu'.2.2]
    exact Prod.ext e1 (Prod.ext e2 e3)
  · intro hreg
    simp only [CrawlScheduler.execute_task_inner, hreg, Bool.not_true, Bool.false_eq_true,
      if_false]
    rw [if_pos (by rw [hu.2.2])]
    simp only [hu.1, htaskd]

/-- C1 counterexample: on a concrete run whose fetch raises, the
executor records the single top-level error but the scheduler marks both
the run and the task "partial", not "failed" as the claim states. -/
theorem fetch_failure_counterexample :
    (CrawlScheduler.execute_task_inner fixtureTask fixtureStore 1000 2000 (.error "boom")
        "2026-10-12" "ab12").1.last_run_status ≠ some "failed" ∧
    (CrawlScheduler.execute_task_inner fixtureTask fixtureStore 1000 2000 (.error "boom")
        "2026-10-12" "ab12").2.2.status ≠ "failed" ∧
    (CrawlScheduler.execute_task_inner fixtureTask fixtureStore 1000 2000 (.error "boom")
        "2026-10-12" "ab12").1.last_run_status = some "partial" ∧
    (CrawlScheduler.execute_task_inner fixtureTask fixtureStore 1000 2000 (.error "boom")
        "2026-10-12" "ab12").2.2.status = "partial" ∧
    (CrawlExecutor.execute fixtureTask fixtureStore (.error "boom")
        "2026-10-12" "ab12").2.2.errors = [{ title := none, reason := "boom" }] := by
  decide

/-- C1 (amended): when fetch raises, the result records exactly one
top-level error, no per-item processing occurs (counts stay zero and the
store is exactly the post-resolution store), and the run's status and the
task's `last_run_status` are set to "partial" — the executor's broad
`except` swallows the exception, so the scheduler sees a completed result
with errors. -/
theorem fetch_failure_partial :
    ∀ (task : CrawlTask) (st : Store) (e dateStr uuidSuffix : String) (now fin : Int),
      (resolve_collection task st dateStr uuidSuffix).1.isSome = true →
      sourceRegistered task.source_type = true →
      ((CrawlExecutor.execute task st (.error e) dateStr uuidSuffix).2.2.errors
          = [{ title := none, reason := e }] ∧
       (CrawlExecutor.execute task st (.error e) dateStr uuidSuffix).2.2.new_papers = 0 ∧
       (CrawlExecutor.execute task st (.error e) dateStr uuidSuffix).2.2.skipped = 0 ∧
       (CrawlExecutor.execute task st (.error e) dateStr uuidSuffix).2.2.updated = 0 ∧
       (CrawlExecutor.execute task st (.error e) dateStr uuidSuffix).2.1
          = (resolve_collection task st dateStr uuidSuffix).2.2 ∧
       (CrawlScheduler.execute_task_inner task st now fin (.error e) dateStr
          uuidSuffix).1.last_run_status = some "partial" ∧
       (CrawlScheduler.execute_task_inner task st now fin (.error e) dateStr
          uuidSuffix).2.2.status = "partial" ∧
       (CrawlScheduler.execute_task_inner task st now fin (.error e) dateStr
          uuidSuffix).2.2.result
          = some (.full (CrawlExecutor.execute task st (.error e) dateStr uuidSuffix).2.2)) := by
  intro task st e dateStr uuidSuffix now fin hsome hreg
  rcases hres : resolve_collection task st dateStr uuidSuffix with ⟨ocol, task', st'⟩
  rw [hres] at hsome
  cases ocol with
  | none => simp at hsome
  | some col =>
    have hexec : CrawlExecutor.execute task st (.error e) dateStr uuidSuffix =
        (task', st',
          { collection_id := some col.id, errors := [{ title := none, reason := e }] }) := by
      simp only [CrawlExecutor.execute, hres]
    refine ⟨by rw [hexec], by rw [hexec], by rw [hexec], by rw [hexec],
      by rw [hexec], ?_, ?_, ?_⟩ <;>
    · simp only [CrawlScheduler.execute_task_inner, hreg, Bool.not_true, Bool.false_eq_true,
        if_false, hexec]
      simp

/-- C6 counterexample: a daily task hitting the
`target_collection_deleted` early exit keeps its stale `next_run_at`
instead of start time plus one day. -/
theorem recurrence_counterexample :
    fixtureTaskGone.schedule_type = "daily" ∧
    (CrawlScheduler.execute_task_inner fixtureTaskGone fixtureStore 1000 2000 (.ok [])
        "d" "u").1.next_run_at ≠ some (1000 + oneDay) ∧
    (CrawlScheduler.execute_task_inner fixtureTaskGone fixtureStore 1000 2000 (.ok [])
        "d" "u").1.next_run_at = fixtureTaskGone.next_run_at := by
  decide

/-- C6 (amended): after every execution of a daily/weekly/monthly task
except the `target_collection_deleted` early exit, `next_run_at` equals
the execution's start time plus exactly 1, 7 or 30 days, independent of
the prior value; on that early exit `next_run_at` is left untouched. -/
theorem recurrence_next_run_amended :
    ∀ (task : CrawlTask) (st : Store) (now fin : Int)
      (fr : Except String (List FetchedPaper)) (dateStr uuidSuffix : String),
      (task.schedule_type = "daily" ∨ task.schedule_type = "weekly" ∨
        task.schedule_type = "monthly") →
      ((sourceRegistered task.source_type = true ∧
          (CrawlExecutor.execute task st fr dateStr uuidSuffix).2.2.error
            = some "target_collection_deleted") →
        (CrawlScheduler.execute_task_inner task st now fin fr dateStr
          uuidSuffix).1.next_run_at = task.next_run_at) ∧
      (¬(sourceRegistered task.source_type = true ∧
          (CrawlExecutor.execute task st fr dateStr uuidSuffix).2.2.error
            = some "target_collection_deleted") →
        (CrawlScheduler.execute_task_inner task st now fin fr dateStr
          uuidSuffix).1.next_run_at
          = some (now + (if task.schedule_type = "daily" then oneDay
              else if task.schedule_type = "weekly" then 7 * oneDay
              else 30 * oneDay))) := by
  intro task st now fin fr dateStr uuidSuffix hsched
  constructor
  · rintro ⟨hreg, herr⟩
    have hnone : (resolve_collection task st dateStr uuidSuffix).1 = none := by
      by_cases hsome : (resolve_collection task st dateStr uuidSuffix).1.isSome = true
      · exact absurd herr (by
          rw [(execute_resolved_facts task st fr dateStr uuidSuffix hsome).2]; simp)
      · exact Option.not_isSome_iff_eq_none.mp (by simpa using hsome)
    have hu := execute_unresolved_facts task st fr dateStr uuidSuffix hnone
    have htaskd := (resolve_collection_none_task task st dateStr uuidSuffix hnone).1
    simp only [CrawlScheduler.execute_task_inner, hreg, Bool.not_true, Bool.false_eq_true,
      if_false]
    rw [if_pos herr]
    simp only [hu.1, htaskd]
  · intro hnot
    by_cases hreg : sourceRegistered task.source_type = true
    · have herr : (CrawlExecutor.execute task st fr dateStr uuidSuffix).2.2.error
          ≠ some "target_collection_deleted" := fun h => hnot ⟨hreg, h⟩
      have hsch : (CrawlExecutor.execute task st fr dateStr uuidSuffix).1.schedule_type
          = task.schedule_type := by
        by_cases hsome : (resolve_collection task st dateStr uuidSuffix).1.isSome = true
        · rw [(execute_resolved_facts task st fr dateStr uuidSuffix hsome).1]
        · have hnone : (resolve_collection task st dateStr uuidSuffix).1 = none :=
            Option.not_isSome_iff_eq_none.mp (by simpa using hsome)
          rw [(execute_unresolved_facts task st fr dateStr uuidSuffix hnone).1,
            (resolve_collection_none_task task st dateStr uuidSuffix hnone).1]
      simp only [CrawlScheduler.execute_task_inner, hreg, Bool.not_true, Bool.false_eq_true,
        if_false]
      rw [if_neg herr]
      simp only
      rw [hsch]
      rcases hsched with h | h | h <;> rw [h] <;> simp [compute_next_run, oneDay]
    · have hreg' : sourceRegistered task.source_type = false := by
        simpa using hreg
      simp only [CrawlScheduler.execute_task_inner, hreg', Bool.not_false, if_true,
        schedulerExceptPath]
      rcases hsched with h | h | h <;> rw [h] <;> simp [compute_next_run, oneDay]

/-- C7 counterexample: a `once` task hitting the
`target_collection_deleted` early exit is disabled but keeps its pending
`next_run_at` instead of having it unset. -/
theorem once_task_counterexample :
    fixtureTaskOnceGone.schedule_type = "once" ∧
    (CrawlScheduler.execute_task_inner fixtureTaskOnceGone fixtureStore 1000 2000 (.ok [])
        "d" "u").1.is_enabled = false ∧
    (CrawlScheduler.execute_task_inner fixtureTaskOnceGone fixtureStore 1000 2000 (.ok [])
        "d" "u").1.next_run_at ≠ none ∧
    (CrawlScheduler.execute_task_inner fixtureTaskOnceGone fixtureStore 1000 2000 (.ok [])
        "d" "u").1.next_run_at = some 5 := by
  decide

/-- C7 (amended): after a single execution of a `once` task the task is
disabled in every outcome, and `next_run_at` is unset in every outcome
except the `target_collection_deleted` early exit, where it is left
untouched. -/
theorem once_task_amended :
    ∀ (task : CrawlTask) (st : Store) (now fin : Int)
      (fr : Except String (List FetchedPaper)) (dateStr uuidSuffix : String),
      task.schedule_type = "once" →
      ((CrawlScheduler.execute_task_inner task st now fin fr dateStr
          uuidSuffix).1.is_enabled = false ∧
       (¬(sourceRegistered task.source_type = true ∧
            (CrawlExecutor.execute task st fr dateStr uuidSuffix).2.2.error
              = some "target_collection_deleted") →
         (CrawlScheduler.execute_task_inner task st now fin fr dateStr
            uuidSuffix).1.next_run_at = none) ∧
       ((sourceRegistered task.source_type = true ∧
            (CrawlExecutor.execute task st fr dateStr uuidSuffix).2.2.error
              = some "target_collection_deleted") →
         (CrawlScheduler.execute_task_inner task st now fin fr dateStr
            uuidSuffix).1.next_run_at = task.next_run_at)) := by
  intro task st now fin fr dateStr uuidSuffix honce
  refine ⟨?_, ?_, ?_⟩
  · by_cases hreg : sourceRegistered task.source_type = true
    · by_cases hsome : (resolve_collection task st dateStr uuidSuffix).1.isSome = true
      · have ht := (execute_resolved_facts task st fr dateStr uuidSuffix hsome).1
        have herr := (execute_resolved_facts task st fr dateStr uuidSuffix hsome).2
        simp only [CrawlScheduler.execute_task_inner, hreg, Bool.not_true,
          Bool.false_eq_true, if_false]
        rw [if_neg (by rw [herr]; simp)]
        simp only [ht, honce]
        simp
      · have hnone : (resolve_collection task st dateStr uuidSuffix).1 = none :=
          Option.not_isSome_iff_eq_none.mp (by simpa using hsome)
        have hu := execute_unresolved_facts task st fr dateStr uuidSuffix hnone
        have htaskd := (resolve_collection_none_task task st dateStr uuidSuffix hnone).1
        simp only [CrawlScheduler.execute_task_inner, hreg, Bool.not_true,
          Bool.false_eq_true, if_false]
        rw [if_pos (by rw [hu.2.2])]
        simp only [hu.1, htaskd]
    · have hreg' : sourceRegistered task.source_type = false := by simpa using hreg
      simp only [CrawlScheduler.execute_task_inner, hreg', Bool.not_false, if_true,
        schedulerExceptPath, honce]
  · intro hnot
    by_cases hreg : sourceRegistered task.source_type = true
    · have herr : (CrawlExecutor.execute task st fr dateStr uuidSuffix).2.2.error
          ≠ some "target_collection_deleted" := fun h => hnot ⟨hreg, h⟩
      have hsch : (CrawlExecutor.execute task st fr dateStr uuidSuffix).1.schedule_type
          = task.schedule_type := by
        by_cases hsome : (resolve_collection task st dateStr uuidSuffix).1.isSome = true
        · rw [(execute_resolved_facts task st fr dateStr uuidSuffix hsome).1]
        · have hnone : (resolve_collection task st dateStr uuidSuffix).1 = none :=
            Option.not_isSome_iff_eq_none.mp (by simpa using hsome)
          rw [(execute_unresolved_facts task st fr dateStr uuidSuffix hnone).1,
            (resolve_collection_none_task task st dateStr uuidSuffix hnone).1]
      simp only [CrawlScheduler.execute_task_inner, hreg, Bool.not_true, Bool.false_eq_true,
        if_false]
      rw [if_neg herr]
      simp only
      rw [hsch, honce]
      simp [compute_next_run]
    · have hreg' : sourceRegistered task.source_type = false := by simpa using hreg
      simp only [CrawlScheduler.execute_task_inner, hreg', Bool.not_false, if_true,
        schedulerExceptPath, honce]
      simp [compute_next_run]
  · rintro ⟨hreg, herr⟩
    have hnone : (resolve_collection task st dateStr uuidSuffix).1 = none := by
      by_cases hsome : (resolve_collection task st dateStr uuidSuffix).1.isSome = true
      · exact absurd herr (by
          rw [(execute_resolved_facts task st fr dateStr uuidSuffix hsome).2]; simp)
      · exact Option.not_isSome_iff_eq_none.mp (by simpa using hsome)
    have hu := execute_unresolved_facts task st fr dateStr uuidSuffix hnone
    have htaskd := (resolve_collection_none_task task st dateStr uuidSuffix hnone).1
    simp only [CrawlScheduler.execute_task_inner, hreg, Bool.not_true, Bool.false_eq_true,
      if_false]
    rw [if_pos (by rw [hu.2.2])]
    simp only [hu.1, htaskd]

/-- The membership step never changes the running result. -/
theorem membershipStep_res (cid pid : String) (st : Store) (mo : Nat) (res : ExecResult) :
    (membershipStep cid pid st mo res).2.2 = res := by
  unfold membershipStep
  split_ifs <;> rfl

/-- The membership step never changes the paper table. -/
theorem membershipStep_papers (cid pid : String) (st : Store) (mo : Nat) (res : ExecResult) :
    (membershipStep cid pid st mo res).1.papers = st.papers := by
  unfold membershipStep
  split_ifs <;> rfl

/-- C8 counterexample: updating a stored "no_access" record from a
candidate whose derived status is "accessible" leaves the stored status
at "no_access" — the status is not recomputed from the candidate's URLs
as the claim states. -/
theorem update_status_counterexample :
    fixtureFetchedPdf.to_paper_dict.status = "accessible" ∧
    (processOne "u1" "update" "c1" (fixtureStoreStale, 0, { collection_id := some "c1" })
        fixtureFetchedPdf).1.papers
      = [{ fixturePaperStale with
            title := "New", doi := some "10.1/x", url_pdf := some "http://x/pdf" }] ∧
    (applyUpdate fixturePaperStale fixtureFetchedPdf.to_paper_dict).status = "no_access" ∧
    "no_access" ≠ "accessible" := by
  decide

/-- C8 (amended): on a duplicate with strategy "update", every
candidate field except `status` is written onto the existing record
(fields the candidate lacks are kept), the existing record's `status` is
left unchanged (not recomputed), and the item counts as updated; for
"skip" and any other strategy the paper table is unmodified and the item
counts as skipped. -/
theorem duplicate_strategy_amended :
    (∀ (existing : Paper) (d : PaperDict),
      (applyUpdate existing d).status = existing.status ∧
      (applyUpdate existing d).id = existing.id ∧
      (applyUpdate existing d).title = d.title ∧
      (applyUpdate existing d).authors = d.authors.elim existing.authors some ∧
      (applyUpdate existing d).abstract = d.abstract.elim existing.abstract some ∧
      (applyUpdate existing d).year = d.year.elim existing.year some ∧
      (applyUpdate existing d).venue = d.venue.elim existing.venue some ∧
      (applyUpdate existing d).arxiv_id = d.arxiv_id.elim existing.arxiv_id some ∧
      (applyUpdate existing d).doi = d.doi.elim existing.doi some ∧
      (applyUpdate existing d).url_arxiv = d.url_arxiv.elim existing.url_arxiv some ∧
      (applyUpdate existing d).url_pdf = d.url_pdf.elim existing.url_pdf some ∧
      (applyUpdate existing d).url_code = d.url_code.elim existing.url_code some ∧
      (applyUpdate existing d).url_project = d.url_project.elim existing.url_project some ∧
      (applyUpdate existing d).tags = d.tags.elim existing.tags some ∧
      (applyUpdate existing d).bibtex_key = d.bibtex_key.elim existing.bibtex_key some) ∧
    (∀ (owner strategy cid : String) (st : Store) (mo : Nat) (res : ExecResult)
      (fetched : FetchedPaper) (existing : Paper) (mt : DuplicateMatchType),
      find_duplicate_paper (scopedPapers st owner) fetched.to_paper_dict
        = some (existing, mt) →
      ((processOne owner "update" cid (st, mo, res) fetched).2.2.updated
          = res.updated + 1 ∧
       (processOne owner "update" cid (st, mo, res) fetched).2.2.skipped = res.skipped ∧
       (processOne owner "update" cid (st, mo, res) fetched).2.2.new_papers
          = res.new_papers ∧
       (processOne owner "update" cid (st, mo, res) fetched).1.papers
          = replacePaper st.papers existing.id (applyUpdate existing fetched.to_paper_dict) ∧
       (strategy ≠ "update" →
         (processOne owner strategy cid (st, mo, res) fetched).1.papers = st.papers ∧
         (processOne owner strategy cid (st, mo, res) fetched).2.2.skipped
            = res.skipped + 1 ∧
         (processOne owner strategy cid (st, mo, res) fetched).2.2.updated = res.updated ∧
         (processOne owner strategy cid (st, mo, res) fetched).2.2.new_papers
            = res.new_papers))) := by
  constructor
  · intro existing d
    refine ⟨rfl, rfl, rfl, ?_, ?_, ?_, ?_, ?_, ?_, ?_, ?_, ?_, ?_, ?_, ?_⟩
    · cases h : d.authors <;> simp [applyUpdate, h]
    · cases h : d.abstract <;> simp [applyUpdate, h]
    · cases h : d.year <;> simp [applyUpdate, h]
    · cases h : d.venue <;> simp [applyUpdate, h]
    · cases h : d.arxiv_id <;> simp [applyUpdate, h]
    · cases h : d.doi <;> simp [applyUpdate, h]
    · cases h : d.url_arxiv <;> simp [applyUpdate, h]
    · cases h : d.url_pdf <;> simp [applyUpdate, h]
    · cases h : d.url_code <;> simp [applyUpdate, h]
    · cases h : d.url_project <;> simp [applyUpdate, h]
    · cases h : d.tags <;> simp [applyUpdate, h]
    · cases h : d.bibtex_key <;> simp [applyUpdate, h]
  · intro owner strategy cid st mo res fetched existing mt h
    refine ⟨?_, ?_, ?_, ?_, ?_⟩
    · simp [processOne, h, membershipStep_res]
    · simp [processOne, h, membershipStep_res]
    · simp [processOne, h, membershipStep_res]
    · simp [processOne, h, membershipStep_papers]
    · intro hs
      refine ⟨?_, ?_, ?_, ?_⟩ <;>
        simp [processOne, h, if_neg hs, membershipStep_res, membershipStep_papers]

theorem duplicate_strategy_amended_witness :
    (processOne "u1" "update" "c1" (fixtureStoreStale, 0, { collection_id := some "c1" })
        fixtureFetchedPdf).2.2.updated = 0 + 1 ∧
    (processOne "u1" "skip" "c1" (fixtureStoreStale, 0, { collection_id := some "c1" })
        fixtureFetchedPdf).2.2.skipped = 0 + 1 ∧
    (applyUpdate fixturePaperStale fixtureFetchedPdf.to_paper_dict).status
      = fixturePaperStale.status := by
  have h := duplicate_strategy_amended.2 "u1" "skip" "c1" fixtureStoreStale 0
    { collection_id := some "c1" } fixtureFetchedPdf fixturePaperStale .DOI (by decide)
  exact ⟨h.1, (h.2.2.2.2 (by decide)).2.1,
    (duplicate_strategy_amended.1 fixturePaperStale fixtureFetchedPdf.to_paper_dict).1⟩

/-- A fold of `Nat.max` dominates its initial accumulator. -/
theorem le_foldl_max_init (l : List Nat) (a : Nat) : a ≤ l.foldl Nat.max a := by
  induction l generalizing a with
  | nil => exact le_refl a
  | cons x xs ih => exact le_trans (Nat.le_max_left a x) (ih (Nat.max a x))

/-- A fold of `Nat.max` dominates every list element. -/
theorem le_foldl_max (l : List Nat) (a : Nat) : ∀ x ∈ l, x ≤ l.foldl Nat.max a := by
  induction l generalizing a with
  | nil => intro x hx; simp at hx
  | cons y ys ih =>
    intro x hx
    rcases List.mem_cons.mp hx with h | h
    · subst h
      exact le_trans (Nat.le_max_right a x) (le_foldl_max_init ys (Nat.max a x))
    · exact ih (Nat.max a y) x h

/-- The maximum display order read before the loop bounds every
existing membership row of the collection. -/
theorem maxDisplayOrder_bounds (st : Store) (cid : String) :
    ordersBounded st.memberships cid (maxDisplayOrder st cid) := by
  intro m hm hcid
  unfold maxDisplayOrder
  have hmem : m ∈ st.memberships.filter (fun m => m.collection_id = cid) :=
    List.mem_filter.mpr ⟨hm, by simp [hcid]⟩
  have := le_foldl_max
    ((st.memberships.filter (fun m => m.collection_id = cid)).map (fun m => m.display_order))
    0 m.display_order (List.mem_map_of_mem _ hmem)
  rwa [List.foldl_map] at this

/-- Appending a row of the collection with order `mo + 1` preserves the
strict order chain, the bound, and pair uniqueness. -/
theorem row_append_invariants (l : List CollectionPaper) (cid : String) (mo : Nat)
    (row : CollectionPaper) (hrowcid : row.collection_id = cid)
    (hroword : row.display_order = mo + 1)
    (hb : ordersBounded l cid mo) (hc : ordersChain l cid) :
    ordersChain (l ++ [row]) cid ∧ ordersBounded (l ++ [row]) cid (mo + 1) ∧
    ((∀ m ∈ l, ¬(m.collection_id = row.collection_id ∧ m.paper_id = row.paper_id)) →
      pairUnique l → pairUnique (l ++ [row])) := by
  refine ⟨?_, ?_, ?_⟩
  · unfold ordersChain at hc ⊢
    rw [List.filter_append]
    have h1 : List.filter (fun m => decide (m.collection_id = cid)) [row] = [row] := by
      simp [hrowcid]
    rw [h1, List.map_append]
    apply List.Chain'.append hc (by simp)
    intro x hx y hy
    simp only [List.map_cons, List.map_nil, List.head?_cons, Option.mem_def,
      Option.some.injEq] at hy
    rw [hroword] at hy
    have hx' : x ∈ (l.filter (fun m => decide (m.collection_id = cid))).map
        (fun m => m.display_order) := List.mem_of_mem_getLast? hx
    rw [List.mem_map] at hx'
    obtain ⟨m, hm, hmx⟩ := hx'
    rw [List.mem_filter] at hm
    have hle := hb m hm.1 (by simpa using hm.2)
    omega
  · intro m hm hcid
    rcases List.mem_append.mp hm with h | h
    · exact le_trans (hb m h hcid) (Nat.le_succ mo)
    · rw [List.mem_singleton] at h
      subst h
      omega
  · intro hnm hpu
    unfold pairUnique at hpu ⊢
    rw [List.pairwise_append]
    refine ⟨hpu, List.pairwise_singleton _ _, ?_⟩
    intro a ha b hb'
    rw [List.mem_singleton] at hb'
    subst hb'
    exact hnm a ha

/-- The membership step preserves pair uniqueness, the counter bound
and the strict order chain. -/
theorem membershipStep_inv (cid pid : String) (st : Store) (mo : Nat) (res : ExecResult)
    (hpu : pairUnique st.memberships)
    (hb : ordersBounded st.memberships cid mo)
    (hc : ordersChain st.memberships cid) :
    pairUnique (membershipStep cid pid st mo res).1.memberships ∧
    ordersBounded (membershipStep cid pid st mo res).1.memberships cid
      (membershipStep cid pid st mo res).2.1 ∧
    ordersChain (membershipStep cid pid st mo res).1.memberships cid := by
  unfold membershipStep
  split_ifs with hex
  · exact ⟨hpu, hb, hc⟩
  · have hnm : ∀ m ∈ st.memberships,
        ¬(m.collection_id = cid ∧ m.paper_id = pid) := by
      intro m hm hand
      exact hex (List.any_eq_true.mpr ⟨m, hm, by simp [hand.1, hand.2]⟩)
    have hra := row_append_invariants st.memberships cid mo
      { collection_id := cid, paper_id := pid, group_name := some "Crawled",
        group_tag := some "crawled", section_name := some "All Papers",
        display_order := mo + 1 } rfl rfl hb hc
    exact ⟨hra.2.2 hnm hpu, hra.2.1, hra.1⟩

/-- One iteration of the per-item loop preserves pair uniqueness, the
counter bound and the strict order chain. -/
theorem processOne_inv (owner strategy cid : String) (acc : Store × Nat × ExecResult)
    (f : FetchedPaper)
    (hpu : pairUnique acc.1.memberships)
    (hb : ordersBounded acc.1.memberships cid acc.2.1)
    (hc : ordersChain acc.1.memberships cid) :
    pairUnique (processOne owner strategy cid acc f).1.memberships ∧
    ordersBounded (processOne owner strategy cid acc f).1.memberships cid
      (processOne owner strategy cid acc f).2.1 ∧
    ordersChain (processOne owner strategy cid acc f).1.memberships cid := by
  obtain ⟨st, mo, res⟩ := acc
  simp only at hpu hb hc
  simp only [processOne]
  cases find_duplicate_paper (scopedPapers st owner) f.to_paper_dict with
  | some pr =>
    obtain ⟨existing, mt⟩ := pr
    by_cases hs : strategy = "update"
    · simp only [hs, if_pos rfl]
      exact membershipStep_inv _ _ _ _ _ hpu hb hc
    · simp only [if_neg hs]
      exact membershipStep_inv _ _ _ _ _ hpu hb hc
  | none =>
    exact membershipStep_inv _ _ _ _ _ hpu hb hc

/-- The whole per-item loop preserves pair uniqueness, the counter
bound and the strict order chain. -/
theorem foldl_processOne_inv (owner strategy cid : String) (items : List FetchedPaper)
    (acc : Store × Nat × ExecResult)
    (hpu : pairUnique acc.1.memberships)
    (hb : ordersBounded acc.1.memberships cid acc.2.1)
    (hc : ordersChain acc.1.memberships cid) :
    pairUnique (items.foldl (processOne owner strategy cid) acc).1.memberships ∧
    ordersBounded (items.foldl (processOne owner strategy cid) acc).1.memberships cid
      (items.foldl (processOne owner strategy cid) acc).2.1 ∧
    ordersChain (items.foldl (processOne owner strategy cid) acc).1.memberships cid := by
  induction items generalizing acc with
  | nil => exact ⟨hpu, hb, hc⟩
  | cons f rest ih =>
    simp only [List.foldl_cons]
    have h1 := processOne_inv owner strategy cid acc f hpu hb hc
    exact ih (processOne owner strategy cid acc f) h1.1 h1.2.1 h1.2.2

/-- C9: an item whose paper is already linked to the collection adds no
second membership row and does not advance the display-order counter; an
item not yet linked appends exactly one row carrying the next
display-order value (strictly greater than every existing order of the
collection) and the fixed "crawled" group label; consequently the
per-item loop keeps (collection, paper) pairs unique and display orders
strictly increasing, and the initial counter read by `execute` bounds all
existing orders. -/
theorem membership_idempotent_ordered :
    (∀ (cid pid : String) (st : Store) (mo : Nat) (res : ExecResult),
      st.memberships.any (fun m => m.collection_id = cid && m.paper_id = pid) = true →
      membershipStep cid pid st mo res = (st, mo, res)) ∧
    (∀ (cid pid : String) (st : Store) (mo : Nat) (res : ExecResult),
      st.memberships.any (fun m => m.collection_id = cid && m.paper_id = pid) = false →
      ((membershipStep cid pid st mo res).1.memberships
          = st.memberships ++
            [{ collection_id := cid, paper_id := pid, group_name := some "Crawled",
               group_tag := some "crawled", section_name := some "All Papers",
               display_order := mo + 1 }] ∧
       (membershipStep cid pid st mo res).2.1 = mo + 1 ∧
       (ordersBounded st.memberships cid mo →
         ∀ m ∈ st.memberships, m.collection_id = cid → m.display_order < mo + 1))) ∧
    (∀ (owner strategy cid : String) (items : List FetchedPaper) (st : Store) (mo : Nat)
      (res : ExecResult),
      pairUnique st.memberships → ordersBounded st.memberships cid mo →
      ordersChain st.memberships cid →
      (pairUnique
          (items.foldl (processOne owner strategy cid) (st, mo, res)).1.memberships ∧
       ordersChain
          (items.foldl (processOne owner strategy cid) (st, mo, res)).1.memberships cid)) ∧
    (∀ (st : Store) (cid : String),
      ordersBounded st.memberships cid (maxDisplayOrder st cid)) := by
  refine ⟨?_, ?_, ?_, maxDisplayOrder_bounds⟩
  · intro cid pid st mo res h
    simp [membershipStep, h]
  · intro cid pid st mo res h
    refine ⟨by simp [membershipStep, h], by simp [membershipStep, h], ?_⟩
    intro hb m hm hcid
    exact Nat.lt_succ_of_le (hb m hm hcid)
  · intro owner strategy cid items st mo res hpu hb hc
    have h := foldl_processOne_inv owner strategy cid items (st, mo, res) hpu hb hc
    exact ⟨h.1, h.2.2⟩

theorem membership_idempotent_ordered_witness :
    membershipStep "c1" "p1" fixtureStoreStale 0 { collection_id := some "c1" }
      = (fixtureStoreStale, 0, { collection_id := some "c1" }) ∧
    (membershipStep "c1" "p9" fixtureStoreStale 3 { collection_id := some "c1" }).2.1
      = 3 + 1 ∧
    pairUnique (([fixtureFetchedPdf].foldl (processOne "u1" "skip" "c1")
      (fixtureStore, 0, { collection_id := some "c1" })).1.memberships) := by
  refine ⟨membership_idempotent_ordered.1 "c1" "p1" fixtureStoreStale 0 _ (by decide),
    (membership_idempotent_ordered.2.1 "c1" "p9" fixtureStoreStale 3 _ (by decide)).2.1,
    (membership_idempotent_ordered.2.2.1 "u1" "skip" "c1" [fixtureFetchedPdf] fixtureStore 0
      { collection_id := some "c1" } ?_ ?_ ?_).1⟩
  · exact List.Pairwise.nil
  · intro m hm
    simp [fixtureStore] at hm
  · simp [fixtureStore, ordersChain]

theorem target_deleted_early_exit_witness :
    (CrawlExecutor.execute fixtureTaskGone fixtureStore (.ok []) "d" "u").2.2.error
        = some "target_collection_deleted" ∧
    (CrawlExecutor.execute fixtureTaskGone fixtureStore (.ok []) "d" "u").1.is_enabled
        = false ∧
    (CrawlExecutor.execute fixtureTaskGone fixtureStore (.ok []) "d" "u").1.last_run_status
        = some "failed" ∧
    CrawlExecutor.execute fixtureTaskGone fixtureStore (.ok []) "d" "u"
        = CrawlExecutor.execute fixtureTaskGone fixtureStore (.error "x") "d" "u" ∧
    (CrawlScheduler.execute_task_inner fixtureTaskGone fixtureStore 1000 2000 (.ok [])
        "d" "u").1.next_run_at = fixtureTaskGone.next_run_at := by
  have h := target_deleted_early_exit fixtureTaskGone fixtureStore (.ok []) (.error "x")
    "d" "u" 1000 2000 (by decide) (by decide)
  exact ⟨h.1, h.2.1, h.2.2.1, h.2.2.2.1, h.2.2.2.2 (by decide)⟩

theorem fetch_failure_partial_witness :
    (CrawlExecutor.execute fixtureTask fixtureStore (.error "boom") "d" "u").2.2.errors
        = [{ title := none, reason := "boom" }] ∧
    (CrawlScheduler.execute_task_inner fixtureTask fixtureStore 1000 2000 (.error "boom")
        "d" "u").1.last_run_status = some "partial" ∧
    (CrawlScheduler.execute_task_inner fixtureTask fixtureStore 1000 2000 (.error "boom")
        "d" "u").2.2.status = "partial" := by
  have h := fetch_failure_partial fixtureTask fixtureStore "boom" "d" "u" 1000 2000
    (by decide) (by decide)
  exact ⟨h.1, h.2.2.2.2.2.1, h.2.2.2.2.2.2.1⟩

theorem recurrence_next_run_amended_witness :
    (CrawlScheduler.execute_task_inner fixtureTask fixtureStore 1000 2000 (.ok [])
        "d" "u").1.next_run_at = some (1000 + oneDay) ∧
    (CrawlScheduler.execute_task_inner fixtureTaskGone fixtureStore 1000 2000 (.ok [])
        "d" "u").1.next_run_at = fixtureTaskGone.next_run_at := by
  have h1 := recurrence_next_run_amended fixtureTask fixtureStore 1000 2000 (.ok [])
    "d" "u" (by left; rfl)
  have h2 := recurrence_next_run_amended fixtureTaskGone fixtureStore 1000 2000 (.ok [])
    "d" "u" (by left; rfl)
  refine ⟨?_, h2.1 ⟨by decide, by decide⟩⟩
  have h3 := h1.2 (by decide)
  simpa using h3

theorem once_task_amended_witness :
    (CrawlScheduler.execute_task_inner fixtureTaskOnceGone fixtureStore 1000 2000 (.ok [])
        "d" "u").1.is_enabled = false ∧
    (CrawlScheduler.execute_task_inner fixtureTaskOnceGone fixtureStore 1000 2000 (.ok [])
        "d" "u").1.next_run_at = fixtureTaskOnceGone.next_run_at ∧
    (CrawlScheduler.execute_task_inner { fixtureTask with schedule_type := "once" }
        fixtureStore 1000 2000 (.ok []) "d" "u").1.next_run_at = none := by
  have h1 := once_task_amended fixtureTaskOnceGone fixtureStore 1000 2000 (.ok []) "d" "u"
    rfl
  have h2 := once_task_amended { fixtureTask with schedule_type := "once" } fixtureStore
    1000 2000 (.ok []) "d" "u" rfl
  exact ⟨h1.1, h1.2.2 ⟨by decide, by decide⟩, h2.2.1 (by decide)⟩
